import Mathlib

/-!
Verification of the adjacent-polygon dissolution and geometry-validation core of
the landbruget.dk backend (unified_pipeline).

Shallow embedding of:
* `silver/wetlands.py`: `shares_edge`, the adjacency-merge loop of
  `WetlandsSilver._create_dissolved_df`, `analyze_geometry`,
  `log_geometry_statistics`;
* `common/geometry_validator.py`: `validate_and_transform_geometries`;
* the CRS flow of `WetlandsSilver._create_dissolved_df` and
  `WaterProjectsSilver._create_dissolved_df`.

Wetlands source data are 10m x 10m axis-aligned grid cells (EPSG:25832), so for
the adjacency claims the polygon type is modelled by axis-aligned boxes with
integer (metre) coordinates; on boxes, shapely's `intersection`, `geom_type`,
`length` and bounding-box tests have the exact arithmetic meaning defined below.
-/

namespace UnifiedPipeline

/-! ## Axis-aligned box geometry (the wetlands grid-cell polygons) -/

/-- An axis-aligned rectangle with integer metre coordinates, the shape of every
wetlands grid-cell polygon (`Polygon([(x0,y0),(x1,y0),(x1,y1),(x0,y1)])`). -/
structure Box where
  xmin : Int
  ymin : Int
  xmax : Int
  ymax : Int
deriving DecidableEq

/-- Signed overlap of the x-extents of two boxes: positive means a proper
overlap, zero means touching, negative means disjoint in x. -/
def overlapX (a b : Box) : Int := min a.xmax b.xmax - max a.xmin b.xmin

/-- Signed overlap of the y-extents of two boxes. -/
def overlapY (a b : Box) : Int := min a.ymax b.ymax - max a.ymin b.ymin

/-- The shape class of `geom1.intersection(geom2)` together with its length when
it is a line: shapely's `geom_type` / `length` for two axis-aligned boxes. -/
inductive IsectShape where
  | empty
  | point
  | line (len : Int)
  | area
deriving DecidableEq

/-- `geom1.intersection(geom2)` classified, for axis-aligned boxes: the
intersection rectangle `[max xmin, min xmax] x [max ymin, min ymax]` is empty,
a point, a line segment (with its length) or a two-dimensional region. -/
def boxIsect (a b : Box) : IsectShape :=
  let w := overlapX a b
  let h := overlapY a b
  if w < 0 ∨ h < 0 then .empty
  else if w = 0 ∧ h = 0 then .point
  else if w = 0 then .line h
  else if h = 0 then .line w
  else .area

/-- `shares_edge` from `WetlandsSilver._create_dissolved_df`:
`intersection.geom_type == "LineString" and intersection.length >= 10`. -/
def shares_edge (g1 g2 : Box) : Bool :=
  match boxIsect g1 g2 with
  | .line len => len ≥ 10
  | _ => false

/-- Bounding-box intersection test of the spatial index
(`spatial_index.intersection(bounds)`); an rtree range query reports touching
boxes as well, hence the non-strict inequalities. -/
def bounds_intersect (a b : Box) : Bool :=
  overlapX a b ≥ 0 && overlapY a b ≥ 0

/-- Geometry of feature `i` of the collection (out-of-range defaults never
arise: all callers index within `gs.length`). -/
def getBox (gs : List Box) (i : Nat) : Box := gs.getD i ⟨0, 0, 0, 0⟩

/-! ## The adjacency-merge loop of `_create_dissolved_df`

The loop is stated generically over the candidate query `cand` (the spatial
index) and the pairwise test `adj` (`shares_edge`), then instantiated with the
box geometry.  `merged` is the Python `merged` set, `scanCandidates` is the
inner `for match_idx, match_row in possible_matches.iterrows()` loop, and
`mergeAll` the outer `for idx, row in df.iterrows()` loop. -/

/-- Inner candidate scan: for each candidate `j` with
`match_idx != idx and match_idx not in merged` and `shares_edge(...)`, append
`j` to the current group and add it to `merged`.  Returns the indices appended
to the group and the updated `merged` set. -/
def scanCandidates (adj : Nat → Nat → Bool) (i : Nat) :
    List Nat → List Nat → List Nat × List Nat
  | [], merged => ([], merged)
  | j :: rest, merged =>
    if j ≠ i ∧ j ∉ merged ∧ adj i j = true then
      let p := scanCandidates adj i rest (j :: merged)
      (j :: p.1, p.2)
    else
      scanCandidates adj i rest merged

/-- Outer loop over feature indices: skip indices already merged; otherwise
seed a group with `idx`, mark it merged and scan its spatial-index candidates.
Returns the emitted groups (as index lists, seed first) in emission order. -/
def mergeAll (cand : Nat → List Nat) (adj : Nat → Nat → Bool) :
    List Nat → List Nat → List (List Nat)
  | [], _ => []
  | i :: rest, merged =>
    if i ∈ merged then
      mergeAll cand adj rest merged
    else
      let p := scanCandidates adj i (cand i) (i :: merged)
      (i :: p.1) :: mergeAll cand adj rest p.2

/-- The whole merge pass over a collection of `n` features
(`df.iterrows()` visits the range index `0, ..., n-1` in order;
`merged` starts empty). -/
def mergeGroups (n : Nat) (cand : Nat → List Nat) (adj : Nat → Nat → Bool) :
    List (List Nat) :=
  mergeAll cand adj (List.range n) []

/-- Spatial-index candidate query for feature `i` of a box collection:
all indices whose bounding box intersects the bounds of geometry `i`. -/
def boxCand (gs : List Box) (i : Nat) : List Nat :=
  (List.range gs.length).filter (fun j => bounds_intersect (getBox gs i) (getBox gs j))

/-- `shares_edge` lifted to feature indices of a box collection. -/
def boxAdj (gs : List Box) (i j : Nat) : Bool :=
  shares_edge (getBox gs i) (getBox gs j)

/-- The merge pass instantiated with the box geometry, spatial index and
`shares_edge`, exactly as `_create_dissolved_df` runs it. -/
def mergeGroupsBoxes (gs : List Box) : List (List Nat) :=
  mergeGroups gs.length (boxCand gs) (boxAdj gs)

/-- `merged_poly = unary_union(current_group) if len(current_group) > 1 else
current_group[0]`, over the list of geometries of one group. -/
def mergedPoly {G : Type} [Inhabited G] (union : List G → G) (cg : List G) : G :=
  if 1 < cg.length then union cg else cg.headI

/-- The geometry column of the dissolved GeoDataFrame: one `mergedPoly` per
emitted group. -/
def dissolvedGeometries {G : Type} [Inhabited G] (union : List G → G)
    (geomOf : Nat → G) (groups : List (List Nat)) : List G :=
  groups.map (fun g => mergedPoly union (g.map geomOf))

/-! ### Concrete scenario collections (10 x 10 squares) -/

/-- Two 10x10 squares sharing the full edge x = 10, y in [0, 10]. -/
def twoAdjacentSquares : List Box := [⟨0, 0, 10, 10⟩, ⟨10, 0, 20, 10⟩]

/-- Two 10x10 squares whose shared boundary x = 10, y in [5, 10] is only 5
units long. -/
def halfEdgeSquares : List Box := [⟨0, 0, 10, 10⟩, ⟨10, 5, 20, 15⟩]

/-- Two 10x10 squares touching only at the corner point (10, 10). -/
def cornerTouchSquares : List Box := [⟨0, 0, 10, 10⟩, ⟨10, 10, 20, 20⟩]

/-- Three 10x10 squares in a row: a pairwise-adjacent chain 0 - 1 - 2. -/
def threeRowSquares : List Box := [⟨0, 0, 10, 10⟩, ⟨10, 0, 20, 10⟩, ⟨20, 0, 30, 10⟩]

/-! ### Lemmas about the merge loop -/

/-- The `merged` set returned by the candidate scan is the starting set plus
exactly the indices appended to the group. -/
lemma scanCandidates_mem_snd (adj : Nat → Nat → Bool) (i : Nat) :
    ∀ (cs merged : List Nat) (x : Nat),
      x ∈ (scanCandidates adj i cs merged).2 ↔
        x ∈ (scanCandidates adj i cs merged).1 ∨ x ∈ merged := by
  intro cs
  induction cs with
  | nil => intro merged x; simp [scanCandidates]
  | cons j rest ih =>
    intro merged x
    by_cases h : j ≠ i ∧ j ∉ merged ∧ adj i j = true
    · simp only [scanCandidates, if_pos h]
      rw [ih (j :: merged) x]
      simp only [List.mem_cons]
      tauto
    · simp only [scanCandidates, if_neg h]
      exact ih merged x

/-- Every index the candidate scan appends to the group was unmerged, differs
from the seed `i`, passed the adjacency test against the seed, and was a
candidate. -/
lemma scanCandidates_mem_fst (adj : Nat → Nat → Bool) (i : Nat) :
    ∀ (cs merged : List Nat) (x : Nat),
      x ∈ (scanCandidates adj i cs merged).1 →
        x ∉ merged ∧ x ≠ i ∧ adj i x = true ∧ x ∈ cs := by
  intro cs
  induction cs with
  | nil => intro merged x hx; simp [scanCandidates] at hx
  | cons j rest ih =>
    intro merged x hx
    by_cases h : j ≠ i ∧ j ∉ merged ∧ adj i j = true
    · simp only [scanCandidates, if_pos h, List.mem_cons] at hx
      rcases hx with rfl | hx
      · exact ⟨h.2.1, h.1, h.2.2, List.mem_cons_self _ _⟩
      · have := ih (j :: merged) x hx
        refine ⟨fun hm => this.1 (List.mem_cons_of_mem _ hm), this.2.1, this.2.2.1,
          List.mem_cons_of_mem _ this.2.2.2⟩
    · simp only [scanCandidates, if_neg h] at hx
      have := ih merged x hx
      exact ⟨this.1, this.2.1, this.2.2.1, List.mem_cons_of_mem _ this.2.2.2⟩

/-- Counting invariant of the outer loop: an index that is still to be visited
or already merged ends up in exactly one emitted group if it was unmerged, and
in none if it was already merged. -/
lemma mergeAll_countP (cand : Nat → List Nat) (adj : Nat → Nat → Bool) (k : Nat) :
    ∀ (todo merged : List Nat), (k ∈ todo ∨ k ∈ merged) →
      (mergeAll cand adj todo merged).countP (fun g => decide (k ∈ g)) =
        if k ∈ merged then 0 else 1 := by
  intro todo
  induction todo with
  | nil =>
    intro merged hk
    rcases hk with hk | hk
    · simp at hk
    · simp [mergeAll, hk]
  | cons i rest ih =>
    intro merged hk
    by_cases hi : i ∈ merged
    · rw [show mergeAll cand adj (i :: rest) merged = mergeAll cand adj rest merged from
        by simp [mergeAll, hi]]
      refine ih merged ?_
      rcases hk with hk | hk
      · rcases List.mem_cons.mp hk with rfl | hk
        · exact Or.inr hi
        · exact Or.inl hk
      · exact Or.inr hk
    · have hscan := scanCandidates_mem_snd adj i (cand i) (i :: merged)
      have hfst := scanCandidates_mem_fst adj i (cand i) (i :: merged)
      rw [show mergeAll cand adj (i :: rest) merged =
          (i :: (scanCandidates adj i (cand i) (i :: merged)).1) ::
            mergeAll cand adj rest (scanCandidates adj i (cand i) (i :: merged)).2 from
        by simp [mergeAll, hi]]
      set p := scanCandidates adj i (cand i) (i :: merged) with hp
      rw [List.countP_cons]
      have hrec : (mergeAll cand adj rest p.2).countP (fun g => decide (k ∈ g)) =
          if k ∈ p.2 then 0 else 1 := by
        refine ih p.2 ?_
        rcases hk with hk | hk
        · rcases List.mem_cons.mp hk with rfl | hk
          · exact Or.inr ((hscan k).mpr (Or.inr (List.mem_cons_self _ _)))
          · exact Or.inl hk
        · exact Or.inr ((hscan k).mpr (Or.inr (List.mem_cons_of_mem _ hk)))
      rw [hrec]
      by_cases hm : k ∈ merged
      · have hknotfst : k ∉ i :: p.1 := by
          intro hkin
          rcases List.mem_cons.mp hkin with rfl | hkin
          · exact hi hm
          · exact (hfst k hkin).1 (List.mem_cons_of_mem _ hm)
        have hksnd : k ∈ p.2 := (hscan k).mpr (Or.inr (List.mem_cons_of_mem _ hm))
        simp [hm, hksnd, hknotfst]
      · by_cases hg : k ∈ i :: p.1
        · have hksnd : k ∈ p.2 := by
            rcases List.mem_cons.mp hg with rfl | hg
            · exact (hscan k).mpr (Or.inr (List.mem_cons_self _ _))
            · exact (hscan k).mpr (Or.inl hg)
          simp [hm, hksnd, hg]
        · have hknot : k ∉ p.2 := by
            intro hkin
            rcases (hscan k).mp hkin with hkin | hkin
            · exact hg (List.mem_cons_of_mem _ hkin)
            · rcases List.mem_cons.mp hkin with rfl | hkin
              · exact hg (List.mem_cons_self _ _)
              · exact hm hkin
          simp [hm, hknot, hg]

/-- Every emitted group consists of a seed index followed by indices that each
passed the adjacency test against that seed itself. -/
lemma mergeAll_group_shape (cand : Nat → List Nat) (adj : Nat → Nat → Bool) :
    ∀ (todo merged g : List Nat), g ∈ mergeAll cand adj todo merged →
      ∃ i rest, g = i :: rest ∧ ∀ j ∈ rest, adj i j = true := by
  intro todo
  induction todo with
  | nil => intro merged g hg; simp [mergeAll] at hg
  | cons i rest ih =>
    intro merged g hg
    by_cases hi : i ∈ merged
    · rw [show mergeAll cand adj (i :: rest) merged = mergeAll cand adj rest merged from
        by simp [mergeAll, hi]] at hg
      exact ih merged g hg
    · rw [show mergeAll cand adj (i :: rest) merged =
          (i :: (scanCandidates adj i (cand i) (i :: merged)).1) ::
            mergeAll cand adj rest (scanCandidates adj i (cand i) (i :: merged)).2 from
        by simp [mergeAll, hi]] at hg
      rcases List.mem_cons.mp hg with rfl | hg
      · exact ⟨i, _, rfl, fun j hj =>
          (scanCandidates_mem_fst adj i (cand i) (i :: merged) j hj).2.2.1⟩
      · exact ih _ g hg

/-! ### Claim theorems about the adjacency merge -/

/-- C1: the adjacency merge adds `j` to `i`'s group exactly when the geometric
intersection of the two geometries is a single line (not a point, not empty,
not an area) of length at least the 10-unit edge-share threshold; two 10x10
squares sharing a full 10-unit edge form one merged group of 2, two squares
whose edges overlap by only 5 units form 2 separate groups, and two squares
touching only at a corner point form 2 separate groups. -/
theorem C1_shares_edge_merge :
    (∀ a b : Box, shares_edge a b = true ↔
      ∃ len, boxIsect a b = IsectShape.line len ∧ 10 ≤ len)
    ∧ mergeGroupsBoxes twoAdjacentSquares = [[0, 1]]
    ∧ mergeGroupsBoxes halfEdgeSquares = [[0], [1]]
    ∧ mergeGroupsBoxes cornerTouchSquares = [[0], [1]] := by
  refine ⟨fun a b => ?_, by decide, by decide, by decide⟩
  unfold shares_edge
  cases h : boxIsect a b with
  | line len =>
    simp only [ge_iff_le, decide_eq_true_eq]
    constructor
    · exact fun hle => ⟨len, rfl, hle⟩
    · rintro ⟨l, hl, hle⟩
      cases hl
      exact hle
  | empty => simp
  | point => simp
  | area => simp

/-- Witness for C1 at the pair of edge-to-edge 10x10 squares. -/
theorem C1_witness :
    ∃ len, boxIsect ⟨0, 0, 10, 10⟩ ⟨10, 0, 20, 10⟩ = IsectShape.line len ∧ 10 ≤ len :=
  (C1_shares_edge_merge.1 ⟨0, 0, 10, 10⟩ ⟨10, 0, 20, 10⟩).mp (by decide)

/-- C6: the adjacency merge partitions the feature indices: every input index
ends up in exactly one emitted merge group, for any spatial-index candidate
function and any adjacency test. -/
theorem C6_merge_partition (n : Nat) (cand : Nat → List Nat) (adj : Nat → Nat → Bool)
    (k : Nat) (hk : k < n) :
    (mergeGroups n cand adj).countP (fun g => decide (k ∈ g)) = 1 := by
  have h := mergeAll_countP cand adj k (List.range n) []
      (Or.inl (List.mem_range.mpr hk))
  simpa [mergeGroups] using h

/-- Witness for C6: index 0 of the two edge-to-edge squares lies in exactly one
group. -/
theorem C6_witness :
    (mergeGroups twoAdjacentSquares.length (boxCand twoAdjacentSquares)
        (boxAdj twoAdjacentSquares)).countP (fun g => decide (0 ∈ g)) = 1 :=
  C6_merge_partition twoAdjacentSquares.length (boxCand twoAdjacentSquares)
    (boxAdj twoAdjacentSquares) 0 (by decide)

/-- C7: the merge is single-pass and non-transitive: every group is a seed
index followed by indices that each passed the edge-share test against the
seed geometry itself, and the chain of three pairwise-adjacent 10x10 squares
in a row is split into two groups rather than merged into one. -/
theorem C7_single_pass_non_transitive :
    (∀ (n : Nat) (cand : Nat → List Nat) (adj : Nat → Nat → Bool) (g : List Nat),
        g ∈ mergeGroups n cand adj →
        ∃ i rest, g = i :: rest ∧ ∀ j ∈ rest, adj i j = true)
    ∧ mergeGroupsBoxes threeRowSquares = [[0, 1], [2]]
    ∧ boxAdj threeRowSquares 0 1 = true ∧ boxAdj threeRowSquares 1 2 = true := by
  exact ⟨fun n cand adj g hg => mergeAll_group_shape cand adj _ _ g hg,
    by decide, by decide, by decide⟩

/-- Witness for C7 at the first group the three-square chain produces. -/
theorem C7_witness :
    ∃ i rest, [0, 1] = i :: rest ∧ ∀ j ∈ rest, boxAdj threeRowSquares i j = true :=
  C7_single_pass_non_transitive.1 threeRowSquares.length (boxCand threeRowSquares)
    (boxAdj threeRowSquares) [0, 1] (by decide)

/-- C9: a merge group with exactly one member performs no union: its output
geometry is the original input geometry, unchanged and independent of the
union operation. -/
theorem C9_singleton_group_identity {G : Type} [Inhabited G]
    (union union' : List G → G) (x : G) (geomOf : Nat → G) (i : Nat) :
    mergedPoly union [x] = x
    ∧ mergedPoly union [x] = mergedPoly union' [x]
    ∧ dissolvedGeometries union geomOf [[i]] = [geomOf i] := by
  simp [mergedPoly, dissolvedGeometries]

/-! ## The geometry validator (`common/geometry_validator.py`)

`validate_and_transform_geometries` is stated over an abstract geometry model:
the shapely primitives it calls (`buffer(0)`, `is_valid`, `is_simple`,
`is_empty`, `to_crs`) are fields of a `GeomModel`, and the function itself is
the faithful control flow of the Python source over any such model.  A
GeoDataFrame is a CRS tag plus a geometry column whose entries may be missing
(`None`), modelled by `Option`. -/

/-- Coordinate reference systems appearing in the source: the metric working
CRS "EPSG:25832", the geographic output CRS "EPSG:4326", and any other. -/
inductive CRS where
  | epsg25832
  | epsg4326
  | other (code : Nat)
deriving DecidableEq

/-- The shapely operations used by the validator, kept abstract: any type of
geometries together with `buffer(0)`, the `is_valid` / `is_simple` /
`is_empty` predicates, and CRS reprojection `to_crs`. -/
structure GeomModel where
  Geom : Type
  buffer0 : Geom → Geom
  is_valid : Geom → Bool
  is_simple : Geom → Bool
  is_empty : Geom → Bool
  to_crs : CRS → Geom → Geom

/-- A GeoDataFrame: its CRS and its geometry column; `none` is a missing
(null) geometry. -/
structure GeoDataFrame (G : Type) where
  crs : CRS
  geoms : List (Option G)
deriving DecidableEq

/-- The `ValueError`s of `validate_and_transform_geometries`, each carrying
the geometry count it reports, plus the `AttributeError` that
`gdf.geometry.apply(lambda g: g.buffer(0))` raises when it reaches a missing
geometry (`None.buffer` does not exist). -/
inductive VError where
  | attributeError
  | invalidAfterCleanup (count : Nat)
  | invalidAfterWgs84 (count : Nat)
  | selfIntersecting (count : Nat)
deriving DecidableEq

/-- `is_valid` of a geometry column entry: geopandas reports a missing
geometry as not valid. -/
def optIsValid (M : GeomModel) : Option M.Geom → Bool
  | none => false
  | some g => M.is_valid g

/-- `is_simple` of a geometry column entry. -/
def optIsSimple (M : GeomModel) : Option M.Geom → Bool
  | none => false
  | some g => M.is_simple g

/-- `is_empty` of a geometry column entry: geopandas reports a missing
geometry as not empty. -/
def optIsEmpty (M : GeomModel) : Option M.Geom → Bool
  | none => false
  | some g => M.is_empty g

/-- `gdf.geometry.apply(lambda g: g.buffer(0))`: buffers every geometry, but
raises `AttributeError` if the column contains a missing geometry (the lambda
receives `None`). -/
def bufferSeries (M : GeomModel) (gs : List (Option M.Geom)) :
    Except VError (List (Option M.Geom)) :=
  if gs.any (fun g => g.isNone) then .error .attributeError
  else .ok (gs.map (fun g => g.map M.buffer0))

/-- `gdf.to_crs(c)` applied to the geometry column. -/
def reprojectGeoms (M : GeomModel) (c : CRS) (gs : List (Option M.Geom)) :
    List (Option M.Geom) :=
  gs.map (fun g => g.map (M.to_crs c))

/-- `(~gdf.geometry.is_valid).sum()`: the number of invalid entries. -/
def invalidCount (M : GeomModel) (gs : List (Option M.Geom)) : Nat :=
  gs.countP (fun g => !optIsValid M g)

/-- `(~gdf.geometry.is_simple).sum()`: the number of non-simple entries. -/
def nonSimpleCount (M : GeomModel) (gs : List (Option M.Geom)) : Nat :=
  gs.countP (fun g => !optIsSimple M g)

/-- `gdf.dropna(subset=['geometry'])` followed by `gdf[~gdf.geometry.is_empty]`. -/
def dropNullEmpty (M : GeomModel) (gs : List (Option M.Geom)) :
    List (Option M.Geom) :=
  (gs.filter (fun g => g.isSome)).filter (fun g => !optIsEmpty M g)

/-- The validator from the first UTM-side `buffer(0)` onwards: validity check
in UTM, reprojection to WGS84, second `buffer(0)`, validity check, simplicity
check, removal of null and empty geometries. -/
def validateAfterUtmBuffer (M : GeomModel) (gs1 : List (Option M.Geom)) :
    Except VError (GeoDataFrame M.Geom) :=
  if invalidCount M gs1 ≠ 0 then .error (.invalidAfterCleanup (invalidCount M gs1))
  else
    match bufferSeries M (reprojectGeoms M CRS.epsg4326 gs1) with
    | .error e => .error e
    | .ok gs3 =>
      if invalidCount M gs3 ≠ 0 then .error (.invalidAfterWgs84 (invalidCount M gs3))
      else if nonSimpleCount M gs3 ≠ 0 then .error (.selfIntersecting (nonSimpleCount M gs3))
      else .ok ⟨CRS.epsg4326, dropNullEmpty M gs3⟩

/-- `validate_and_transform_geometries` from `common/geometry_validator.py`:
reproject to EPSG:25832 unless already there, `buffer(0)` cleanup, validity
check, reproject to EPSG:4326, `buffer(0)` cleanup, validity check, simplicity
check, drop null and empty geometries, return the collection in EPSG:4326. -/
def validate_and_transform_geometries (M : GeomModel) (gdf : GeoDataFrame M.Geom) :
    Except VError (GeoDataFrame M.Geom) :=
  match bufferSeries M
      (if gdf.crs ≠ CRS.epsg25832 then reprojectGeoms M CRS.epsg25832 gdf.geoms
       else gdf.geoms) with
  | .error e => .error e
  | .ok gs1 => validateAfterUtmBuffer M gs1

/-- A run of the validator together with the final state of the geometry
column of the caller's GeoDataFrame object. -/
structure TrackedRun (G : Type) where
  result : Except VError (GeoDataFrame G)
  callerGeoms : List (Option G)

/-- The validator with the caller's object tracked through Python's aliasing:
the local name `gdf` initially aliases the caller's frame; `gdf = gdf.to_crs(...)`
rebinds the local name to a fresh frame (breaking the alias), while the
attribute assignment `gdf.geometry = gdf.geometry.apply(lambda g: g.buffer(0))`
writes through whatever object the name currently denotes.  So when the input
is already in EPSG:25832 the first buffer assignment overwrites the caller's
geometry column; if the assignment's right-hand side raises, nothing was
assigned. -/
def validateTracked (M : GeomModel) (gdf : GeoDataFrame M.Geom) :
    TrackedRun M.Geom :=
  if gdf.crs ≠ CRS.epsg25832 then
    ⟨validate_and_transform_geometries M gdf, gdf.geoms⟩
  else
    match bufferSeries M gdf.geoms with
    | .error e => ⟨.error e, gdf.geoms⟩
    | .ok gs1 => ⟨validateAfterUtmBuffer M gs1, gs1⟩

/-- The geometry count reported by a validator error (the `AttributeError`
reports none). -/
def vErrorCount : VError → Nat
  | .attributeError => 0
  | .invalidAfterCleanup n => n
  | .invalidAfterWgs84 n => n
  | .selfIntersecting n => n

/-- The geometry column after the full repair sequence (reprojection to UTM if
needed, `buffer(0)`, reprojection to WGS84, `buffer(0)`), with the
intermediate checks ignored: for null-free input this is the column the final
validity and simplicity checks of the validator inspect. -/
def repairSequenceGeoms (M : GeomModel) (gdf : GeoDataFrame M.Geom) :
    List (Option M.Geom) :=
  let g0 := if gdf.crs ≠ CRS.epsg25832 then reprojectGeoms M CRS.epsg25832 gdf.geoms
            else gdf.geoms
  (reprojectGeoms M CRS.epsg4326 (g0.map (fun g => g.map M.buffer0))).map
    (fun g => g.map M.buffer0)

/-! ### Lemmas about the validator -/

/-- Mapping a total function over the geometry entries keeps every present
entry present. -/
lemma mem_optmap_isSome {α β : Type} (f : α → β) (gs : List (Option α))
    (h : ∀ g ∈ gs, g.isSome = true) :
    ∀ g ∈ gs.map (fun g => g.map f), g.isSome = true := by
  intro g hg
  rcases List.mem_map.mp hg with ⟨a, ha, rfl⟩
  cases a with
  | none => exact absurd (h none ha) (by simp)
  | some x => rfl

/-- On a null-free geometry column the buffer step does not raise and returns
the buffered column. -/
lemma bufferSeries_ok (M : GeomModel) (gs : List (Option M.Geom))
    (h : ∀ g ∈ gs, g.isSome = true) :
    bufferSeries M gs = .ok (gs.map (fun g => g.map M.buffer0)) := by
  have hfalse : gs.any (fun g => g.isNone) = false := by
    rw [List.any_eq_false]
    intro g hg
    have := h g hg
    cases g with
    | none => simp at this
    | some x => simp
  unfold bufferSeries
  rw [hfalse]
  rfl

/-- Buffering is the identity on the column when `buffer(0)` is the identity
on geometries. -/
lemma optmap_id_of_id {α : Type} (f : α → α) (h : ∀ x, f x = x) (gs : List (Option α)) :
    gs.map (fun g => g.map f) = gs := by
  induction gs with
  | nil => rfl
  | cons a rest ih =>
    cases a with
    | none => simp [ih]
    | some x => simp [h x, ih]

/-- Reprojecting a null-free column to the metric CRS and back to the
geographic CRS restores the column, when the reprojection round-trips on
geometries. -/
lemma reproject_roundtrip (M : GeomModel)
    (hrt : ∀ g, M.to_crs CRS.epsg4326 (M.to_crs CRS.epsg25832 g) = g)
    (gs : List (Option M.Geom)) :
    reprojectGeoms M CRS.epsg4326 (reprojectGeoms M CRS.epsg25832 gs) = gs := by
  unfold reprojectGeoms
  rw [List.map_map]
  have : ∀ g : Option M.Geom,
      ((fun g : Option M.Geom => g.map (M.to_crs CRS.epsg4326)) ∘
        fun g : Option M.Geom => g.map (M.to_crs CRS.epsg25832)) g = g := by
    intro g
    cases g with
    | none => rfl
    | some x => simp [Function.comp, hrt x]
  calc gs.map _ = gs.map id := List.map_congr_left (fun a _ => this a)
    _ = gs := List.map_id gs

/-- What a successful run of `validateAfterUtmBuffer` guarantees: the output
is in EPSG:4326 and every output entry is a present, valid, simple, non-empty
geometry. -/
lemma afterUtm_ok_props (M : GeomModel) (gs1 : List (Option M.Geom))
    (out : GeoDataFrame M.Geom)
    (h : validateAfterUtmBuffer M gs1 = .ok out) :
    out.crs = CRS.epsg4326 ∧
    ∀ g ∈ out.geoms, ∃ x, g = some x ∧ M.is_valid x = true ∧
      M.is_simple x = true ∧ M.is_empty x = false := by
  unfold validateAfterUtmBuffer at h
  split at h
  · exact absurd h (by simp)
  · split at h
    · exact absurd h (by simp)
    · rename_i gs3 hb
      split at h
      · exact absurd h (by simp)
      · split at h
        · exact absurd h (by simp)
        · rename_i hinv hsim
          rw [not_not] at hinv hsim
          rw [Except.ok.injEq] at h
          subst h
          refine ⟨rfl, fun g hg => ?_⟩
          have hg2 := List.mem_filter.mp hg
          have hg3 := List.mem_filter.mp hg2.1
          have hmem : g ∈ gs3 := hg3.1
          obtain ⟨x, rfl⟩ := Option.isSome_iff_exists.mp hg3.2
          have hval : optIsValid M (some x) = true := by
            unfold invalidCount at hinv
            have := (List.countP_eq_zero.mp hinv) _ hmem
            simpa using this
          have hsimp : optIsSimple M (some x) = true := by
            unfold nonSimpleCount at hsim
            have := (List.countP_eq_zero.mp hsim) _ hmem
            simpa using this
          have hemp : optIsEmpty M (some x) = false := by
            have := hg2.2
            simpa using this
          exact ⟨x, rfl, by simpa [optIsValid] using hval,
            by simpa [optIsSimple] using hsimp, by simpa [optIsEmpty] using hemp⟩

/-- What a successful run of the whole validator guarantees. -/
lemma validate_ok_props (M : GeomModel) (gdf out : GeoDataFrame M.Geom)
    (h : validate_and_transform_geometries M gdf = .ok out) :
    out.crs = CRS.epsg4326 ∧
    ∀ g ∈ out.geoms, ∃ x, g = some x ∧ M.is_valid x = true ∧
      M.is_simple x = true ∧ M.is_empty x = false := by
  unfold validate_and_transform_geometries at h
  split at h
  · simp at h
  · exact afterUtm_ok_props M _ out h

/-- When the reprojected column is null-free, the post-buffer validator is the
plain chain of its two validity checks, simplicity check and cleanup. -/
lemma afterUtm_unfold (M : GeomModel) (gs1 : List (Option M.Geom))
    (hsome2 : ∀ g ∈ reprojectGeoms M CRS.epsg4326 gs1, g.isSome = true) :
    validateAfterUtmBuffer M gs1 =
      if invalidCount M gs1 ≠ 0 then
        .error (.invalidAfterCleanup (invalidCount M gs1))
      else
        if invalidCount M ((reprojectGeoms M CRS.epsg4326 gs1).map
            (fun g => g.map M.buffer0)) ≠ 0 then
          .error (.invalidAfterWgs84 (invalidCount M ((reprojectGeoms M CRS.epsg4326 gs1).map
            (fun g => g.map M.buffer0))))
        else if nonSimpleCount M ((reprojectGeoms M CRS.epsg4326 gs1).map
            (fun g => g.map M.buffer0)) ≠ 0 then
          .error (.selfIntersecting (nonSimpleCount M ((reprojectGeoms M CRS.epsg4326 gs1).map
            (fun g => g.map M.buffer0))))
        else .ok ⟨CRS.epsg4326, dropNullEmpty M ((reprojectGeoms M CRS.epsg4326 gs1).map
            (fun g => g.map M.buffer0))⟩ := by
  unfold validateAfterUtmBuffer
  by_cases h1 : invalidCount M gs1 ≠ 0
  · rw [if_pos h1, if_pos h1]
  · rw [if_neg h1, if_neg h1, bufferSeries_ok M _ hsome2]

/-- On null-free input the validator is the post-buffer validator applied to
the buffered (and possibly reprojected) column. -/
lemma validate_eq_afterUtm (M : GeomModel) (gdf : GeoDataFrame M.Geom)
    (hnn : ∀ g ∈ gdf.geoms, g.isSome = true) :
    validate_and_transform_geometries M gdf =
      validateAfterUtmBuffer M
        ((if gdf.crs ≠ CRS.epsg25832 then reprojectGeoms M CRS.epsg25832 gdf.geoms
          else gdf.geoms).map (fun g => g.map M.buffer0)) := by
  have hg0 : ∀ g ∈ (if gdf.crs ≠ CRS.epsg25832 then
      reprojectGeoms M CRS.epsg25832 gdf.geoms else gdf.geoms), g.isSome = true := by
    split
    · exact mem_optmap_isSome _ _ hnn
    · exact hnn
  unfold validate_and_transform_geometries
  rw [bufferSeries_ok M _ hg0]

/-! ### Claim theorems about the validator: C2 -/

/-- A geometry model with a single geometry that is valid, simple and empty;
buffering and reprojection leave it unchanged. -/
def emptyGeomModel : GeomModel :=
  { Geom := Unit
  , buffer0 := fun g => g
  , is_valid := fun _ => true
  , is_simple := fun _ => true
  , is_empty := fun _ => true
  , to_crs := fun _ g => g }

/-- A geometry model on natural numbers where `buffer(0)` increments its
argument (making the buffer write observable) and every geometry is invalid
and non-simple. -/
def invalidBumpModel : GeomModel :=
  { Geom := Nat
  , buffer0 := fun n => n + 1
  , is_valid := fun _ => false
  , is_simple := fun _ => false
  , is_empty := fun _ => false
  , to_crs := fun _ g => g }

/-- C2 fails as stated: a collection with one empty geometry — which stays
empty through the whole repair sequence, since buffering and reprojection fix
it — is returned successfully (the empty geometry silently dropped), not
rejected with an error. -/
theorem C2_counterexample :
    emptyGeomModel.is_empty () = true
    ∧ validate_and_transform_geometries emptyGeomModel ⟨CRS.epsg25832, [some ()]⟩ =
        .ok ⟨CRS.epsg4326, []⟩ := by
  exact ⟨rfl, rfl⟩

/-- C2 amended: on success every output geometry is present, valid, simple and
non-empty; and (for null-free input) if after the repair sequence some
geometry is invalid or non-simple, the validator fails with an error carrying
a nonzero geometry count.  Empty or null geometries do not trigger the
failure: empties are dropped, and a null makes the buffer step itself raise. -/
theorem C2_amended (M : GeomModel) (gdf : GeoDataFrame M.Geom) :
    (∀ out, validate_and_transform_geometries M gdf = .ok out →
      ∀ g ∈ out.geoms, ∃ x, g = some x ∧ M.is_valid x = true ∧
        M.is_simple x = true ∧ M.is_empty x = false)
    ∧ ((∀ g ∈ gdf.geoms, g.isSome = true) →
      (∃ g ∈ repairSequenceGeoms M gdf,
          optIsValid M g = false ∨ optIsSimple M g = false) →
      ∃ e, validate_and_transform_geometries M gdf = .error e ∧ vErrorCount e ≠ 0) := by
  constructor
  · exact fun out h => (validate_ok_props M gdf out h).2
  · intro hnn hbad
    rw [validate_eq_afterUtm M gdf hnn]
    have hbad3 : ∃ g ∈ (reprojectGeoms M CRS.epsg4326
        ((if gdf.crs ≠ CRS.epsg25832 then reprojectGeoms M CRS.epsg25832 gdf.geoms
          else gdf.geoms).map (fun g => g.map M.buffer0))).map (fun g => g.map M.buffer0),
        optIsValid M g = false ∨ optIsSimple M g = false := hbad
    have hsome1 : ∀ g ∈ (if gdf.crs ≠ CRS.epsg25832 then
        reprojectGeoms M CRS.epsg25832 gdf.geoms else gdf.geoms).map
          (fun g => g.map M.buffer0), g.isSome = true := by
      refine mem_optmap_isSome _ _ ?_
      split
      · exact mem_optmap_isSome _ _ hnn
      · exact hnn
    set gs1 := (if gdf.crs ≠ CRS.epsg25832 then
        reprojectGeoms M CRS.epsg25832 gdf.geoms else gdf.geoms).map
          (fun g => g.map M.buffer0) with hgs1
    by_cases h1 : invalidCount M gs1 ≠ 0
    · exact ⟨.invalidAfterCleanup (invalidCount M gs1),
        by unfold validateAfterUtmBuffer; rw [if_pos h1], h1⟩
    · have hsome2 : ∀ g ∈ reprojectGeoms M CRS.epsg4326 gs1, g.isSome = true :=
        mem_optmap_isSome _ _ hsome1
      set gs3 := (reprojectGeoms M CRS.epsg4326 gs1).map (fun g => g.map M.buffer0)
        with hgs3
      have hstep : validateAfterUtmBuffer M gs1 =
          if invalidCount M gs3 ≠ 0 then
            .error (.invalidAfterWgs84 (invalidCount M gs3))
          else if nonSimpleCount M gs3 ≠ 0 then
            .error (.selfIntersecting (nonSimpleCount M gs3))
          else .ok ⟨CRS.epsg4326, dropNullEmpty M gs3⟩ := by
        unfold validateAfterUtmBuffer
        rw [if_neg h1, bufferSeries_ok M _ hsome2]
      rw [hstep]
      by_cases h2 : invalidCount M gs3 ≠ 0
      · exact ⟨.invalidAfterWgs84 (invalidCount M gs3), by rw [if_pos h2], h2⟩
      · rw [if_neg h2]
        by_cases h3 : nonSimpleCount M gs3 ≠ 0
        · exact ⟨.selfIntersecting (nonSimpleCount M gs3), by rw [if_pos h3], h3⟩
        · exfalso
          rw [not_not] at h2 h3
          obtain ⟨g, hg, hcase⟩ := hbad3
          rcases hcase with hcase | hcase
          · unfold invalidCount at h2
            have := (List.countP_eq_zero.mp h2) g hg
            simp [hcase] at this
          · unfold nonSimpleCount at h3
            have := (List.countP_eq_zero.mp h3) g hg
            simp [hcase] at this

/-- Witness for C2's amended claim: a collection whose geometry is invalid
after repair makes the validator fail with a count-carrying error. -/
theorem C2_witness :
    ∃ e, validate_and_transform_geometries invalidBumpModel ⟨CRS.epsg25832, [some (0 : Nat)]⟩ =
        .error e ∧ vErrorCount e ≠ 0 :=
  (C2_amended invalidBumpModel ⟨CRS.epsg25832, [some (0 : Nat)]⟩).2 (by decide) (by decide)

/-! ### Claim theorem C10: the error path mutates the caller's frame -/

/-- C10: when the input is already in EPSG:25832 (and has no null geometry,
so the buffer's right-hand side evaluates), the caller's geometry column is
overwritten with the buffered geometries before any validity check — the
column ends as `buffer(0)` of the original regardless of whether the run
returns or raises, so the error path is not atomic with respect to the
input. -/
theorem C10_error_path_mutates_input (M : GeomModel) (gdf : GeoDataFrame M.Geom)
    (hcrs : gdf.crs = CRS.epsg25832) (hnn : ∀ g ∈ gdf.geoms, g.isSome = true) :
    (validateTracked M gdf).callerGeoms = gdf.geoms.map (fun g => g.map M.buffer0)
    ∧ (validateTracked M gdf).result = validate_and_transform_geometries M gdf := by
  have htr : validateTracked M gdf =
      ⟨validateAfterUtmBuffer M (gdf.geoms.map (fun g => g.map M.buffer0)),
        gdf.geoms.map (fun g => g.map M.buffer0)⟩ := by
    unfold validateTracked
    rw [if_neg (by simp [hcrs]), bufferSeries_ok M gdf.geoms hnn]
  have hval : validate_and_transform_geometries M gdf =
      validateAfterUtmBuffer M (gdf.geoms.map (fun g => g.map M.buffer0)) := by
    have h := validate_eq_afterUtm M gdf hnn
    rwa [if_neg (by simp [hcrs])] at h
  rw [htr, hval]
  exact ⟨rfl, rfl⟩

/-- Witness for C10: a metric-CRS input whose geometry is invalid — the run
raises, yet the caller's geometry column has been replaced by the buffered
geometry (`0` became `1`). -/
theorem C10_witness :
    (validateTracked invalidBumpModel ⟨CRS.epsg25832, [some (0 : Nat)]⟩).callerGeoms =
        [some (1 : Nat)]
    ∧ (validateTracked invalidBumpModel ⟨CRS.epsg25832, [some (0 : Nat)]⟩).result =
        .error (.invalidAfterCleanup 1) := by
  refine ⟨?_, by rfl⟩
  exact ((C10_error_path_mutates_input invalidBumpModel ⟨CRS.epsg25832, [some (0 : Nat)]⟩
    rfl (by decide)).1).trans rfl

/-! ### Claim theorem C8: idempotence of repair under exact arithmetic -/

/-- A geometry model in which every geometry is clean (valid, simple,
non-empty) and all operations are identities. -/
def cleanGeomModel : GeomModel :=
  { Geom := Unit
  , buffer0 := fun g => g
  , is_valid := fun _ => true
  , is_simple := fun _ => true
  , is_empty := fun _ => false
  , to_crs := fun _ g => g }

/-- C8: repair is idempotent modulo the floating-point no-ops the claim sets
aside: whenever `buffer(0)` is the identity, reprojection to the metric CRS
preserves validity, and the metric-then-geographic reprojection round-trips,
a second run of the validator on any successful output returns that output
unchanged (and on a failed run there is no output to re-repair). -/
theorem C8_repair_idempotent (M : GeomModel)
    (hb : ∀ g, M.buffer0 g = g)
    (hv : ∀ g, M.is_valid g = true → M.is_valid (M.to_crs CRS.epsg25832 g) = true)
    (hrt : ∀ g, M.to_crs CRS.epsg4326 (M.to_crs CRS.epsg25832 g) = g) :
    ∀ gdf : GeoDataFrame M.Geom,
      (validate_and_transform_geometries M gdf).bind
          (validate_and_transform_geometries M) =
        validate_and_transform_geometries M gdf := by
  intro gdf
  cases hrun : validate_and_transform_geometries M gdf with
  | error e => rfl
  | ok D =>
    show validate_and_transform_geometries M D = .ok D
    obtain ⟨hcrs, hall⟩ := validate_ok_props M gdf D hrun
    have hsome : ∀ g ∈ D.geoms, g.isSome = true := by
      intro g hg
      obtain ⟨x, rfl, -, -, -⟩ := hall g hg
      rfl
    have hne : D.crs ≠ CRS.epsg25832 := by rw [hcrs]; intro h; cases h
    -- the run of the validator on D, step by step
    have h1 : validate_and_transform_geometries M D =
        validateAfterUtmBuffer M (reprojectGeoms M CRS.epsg25832 D.geoms) := by
      have h := validate_eq_afterUtm M D hsome
      rw [if_pos hne] at h
      rw [h]
      unfold reprojectGeoms
      rw [optmap_id_of_id M.buffer0 hb]
    rw [h1]
    have hsomeU : ∀ g ∈ reprojectGeoms M CRS.epsg25832 D.geoms, g.isSome = true := by
      unfold reprojectGeoms
      exact mem_optmap_isSome _ _ hsome
    have hinvU : invalidCount M (reprojectGeoms M CRS.epsg25832 D.geoms) = 0 := by
      unfold invalidCount
      rw [List.countP_eq_zero]
      intro g hg
      rcases List.mem_map.mp hg with ⟨a, ha, rfl⟩
      obtain ⟨x, rfl, hx, -, -⟩ := hall a ha
      simp [optIsValid, hv x hx]
    have hback : reprojectGeoms M CRS.epsg4326 (reprojectGeoms M CRS.epsg25832 D.geoms) =
        D.geoms := reproject_roundtrip M hrt D.geoms
    have hinvD : invalidCount M D.geoms = 0 := by
      unfold invalidCount
      rw [List.countP_eq_zero]
      intro g hg
      obtain ⟨x, rfl, hx, -, -⟩ := hall g hg
      simp [optIsValid, hx]
    have hsimD : nonSimpleCount M D.geoms = 0 := by
      unfold nonSimpleCount
      rw [List.countP_eq_zero]
      intro g hg
      obtain ⟨x, rfl, -, hx, -⟩ := hall g hg
      simp [optIsSimple, hx]
    have hfilter1 : D.geoms.filter (fun g => g.isSome) = D.geoms := by
      rw [List.filter_eq_self]
      intro g hg
      obtain ⟨x, rfl, -, -, -⟩ := hall g hg
      rfl
    have hdrop : dropNullEmpty M D.geoms = D.geoms := by
      unfold dropNullEmpty
      rw [hfilter1, List.filter_eq_self]
      intro g hg
      obtain ⟨x, rfl, -, -, hx⟩ := hall g hg
      simp [optIsEmpty, hx]
    rw [afterUtm_unfold M _ (by rw [hback]; exact hsome)]
    rw [hback, optmap_id_of_id M.buffer0 hb]
    rw [if_neg (by rw [hinvU]; exact fun h => h rfl)]
    rw [if_neg (by rw [hinvD]; exact fun h => h rfl)]
    rw [if_neg (by rw [hsimD]; exact fun h => h rfl)]
    rw [hdrop]
    cases D with
    | mk c gs =>
      cases hcrs
      rfl

/-- Witness for C8: the clean identity model, where the hypotheses hold
definitionally. -/
theorem C8_witness :
    (validate_and_transform_geometries cleanGeomModel ⟨CRS.epsg25832, [some ()]⟩).bind
        (validate_and_transform_geometries cleanGeomModel) =
      validate_and_transform_geometries cleanGeomModel ⟨CRS.epsg25832, [some ()]⟩ :=
  C8_repair_idempotent cleanGeomModel (fun _ => rfl) (fun _ h => h) (fun _ => rfl)
    ⟨CRS.epsg25832, [some ()]⟩

/-! ### Claim theorem C5: the repair step sequence

`repairSpecSequence` is a second definition written from the spec's step list
(reproject to metric CRS if needed; buffer each geometry; check validity and
fail with counts; reproject to the geographic CRS; buffer again; re-check
validity; check simplicity; drop null/empty; return), to be compared with the
validator translated from the source. -/

/-- Spec steps 3 and 6: verify every geometry is valid, failing with the count
of invalid geometries. -/
def specCheckValidity (mkErr : Nat → VError) (M : GeomModel)
    (gs : List (Option M.Geom)) : Except VError (List (Option M.Geom)) :=
  if invalidCount M gs ≠ 0 then .error (mkErr (invalidCount M gs)) else .ok gs

/-- Spec step 7: verify simplicity, failing with the count of non-simple
geometries. -/
def specCheckSimplicity (M : GeomModel) (gs : List (Option M.Geom)) :
    Except VError (List (Option M.Geom)) :=
  if nonSimpleCount M gs ≠ 0 then .error (.selfIntersecting (nonSimpleCount M gs))
  else .ok gs

/-- The spec's nine repair steps composed in the stated order. -/
def repairSpecSequence (M : GeomModel) (gdf : GeoDataFrame M.Geom) :
    Except VError (GeoDataFrame M.Geom) :=
  (specCheckValidity VError.invalidAfterCleanup M
      ((if gdf.crs ≠ CRS.epsg25832 then reprojectGeoms M CRS.epsg25832 gdf.geoms
        else gdf.geoms).map (fun g => g.map M.buffer0))).bind fun s3 =>
  (specCheckValidity VError.invalidAfterWgs84 M
      ((reprojectGeoms M CRS.epsg4326 s3).map (fun g => g.map M.buffer0))).bind fun s6 =>
  (specCheckSimplicity M s6).bind fun s7 =>
  .ok ⟨CRS.epsg4326, dropNullEmpty M s7⟩

/-- `bind` on a successful `Except` computation applies the continuation. -/
lemma except_bind_ok {ε α β : Type} (x : α) (f : α → Except ε β) :
    (Except.ok x : Except ε α).bind f = f x := rfl

/-- C5: on any collection of actual geometries (no nulls — a null makes the
Python buffer step itself raise before the sequence is observable), the
validator performs exactly the spec's step sequence in the spec's order. -/
theorem C5_repair_step_sequence (M : GeomModel) (gdf : GeoDataFrame M.Geom)
    (hnn : ∀ g ∈ gdf.geoms, g.isSome = true) :
    validate_and_transform_geometries M gdf = repairSpecSequence M gdf := by
  have hsome1 : ∀ g ∈ (if gdf.crs ≠ CRS.epsg25832 then
      reprojectGeoms M CRS.epsg25832 gdf.geoms else gdf.geoms).map
        (fun g => g.map M.buffer0), g.isSome = true := by
    refine mem_optmap_isSome _ _ ?_
    split
    · exact mem_optmap_isSome _ _ hnn
    · exact hnn
  rw [validate_eq_afterUtm M gdf hnn,
    afterUtm_unfold M _ (mem_optmap_isSome _ _ hsome1)]
  unfold repairSpecSequence specCheckValidity specCheckSimplicity
  set gs1 := (if gdf.crs ≠ CRS.epsg25832 then
      reprojectGeoms M CRS.epsg25832 gdf.geoms else gdf.geoms).map
        (fun g => g.map M.buffer0) with hgs1
  by_cases h1 : invalidCount M gs1 ≠ 0
  · rw [if_pos h1, if_pos h1]
    rfl
  · rw [if_neg h1, if_neg h1]
    simp only [except_bind_ok]
    set gs3 := (reprojectGeoms M CRS.epsg4326 gs1).map (fun g => g.map M.buffer0)
      with hgs3
    by_cases h2 : invalidCount M gs3 ≠ 0
    · rw [if_pos h2, if_pos h2]
      rfl
    · rw [if_neg h2, if_neg h2]
      simp only [except_bind_ok]
      by_cases h3 : nonSimpleCount M gs3 ≠ 0
      · rw [if_pos h3, if_pos h3]
        rfl
      · rw [if_neg h3, if_neg h3]
        rfl

/-- Witness for C5 at the clean identity model. -/
theorem C5_witness :
    validate_and_transform_geometries cleanGeomModel ⟨CRS.epsg25832, [some ()]⟩ =
      repairSpecSequence cleanGeomModel ⟨CRS.epsg25832, [some ()]⟩ :=
  C5_repair_step_sequence cleanGeomModel ⟨CRS.epsg25832, [some ()]⟩ (by decide)

/-! ## CRS flow of the two dissolve pipelines (claim C3)

The sequence of geometric operations each `_create_dissolved_df` performs,
with the CRS each operation runs in.  The traces follow the source line by
line (for a run in which the checks pass):

* `WetlandsSilver._create_dissolved_df`: statistics on the input (input CRS),
  spatial-index adjacency scan and `unary_union` of each group (input CRS,
  `dissolved_gdf` is built with `crs=df.crs`), statistics on the dissolved
  frame, then `validate_and_transform_geometries`.
* `WaterProjectsSilver._create_dissolved_df`: `df = df.to_crs("EPSG:4326")`
  if the CRS differs from EPSG:4326, `unary_union(df.geometry.values)` in
  EPSG:4326, per-part `buffer(0)` in EPSG:4326, then
  `validate_and_transform_geometries`.
* `validate_and_transform_geometries`: reprojection to EPSG:25832 unless
  already there, `buffer(0)` and validity check in EPSG:25832, reprojection
  to EPSG:4326, `buffer(0)`, validity and simplicity checks in EPSG:4326. -/

/-- A geometric operation of a dissolve pass, tagged with the CRS it runs in. -/
inductive PipelineEvent where
  | statsAt (crs : CRS)
  | adjacencyAt (crs : CRS)
  | unionAt (crs : CRS)
  | bufferAt (crs : CRS)
  | validityCheckAt (crs : CRS)
  | simplicityCheckAt (crs : CRS)
  | reprojectTo (crs : CRS)
deriving DecidableEq

/-- Operation sequence of `validate_and_transform_geometries` on a collection
whose CRS is `c`. -/
def validateTrace (c : CRS) : List PipelineEvent :=
  (if c ≠ CRS.epsg25832 then [.reprojectTo CRS.epsg25832] else [])
    ++ [.bufferAt CRS.epsg25832, .validityCheckAt CRS.epsg25832,
        .reprojectTo CRS.epsg4326, .bufferAt CRS.epsg4326,
        .validityCheckAt CRS.epsg4326, .simplicityCheckAt CRS.epsg4326]

/-- Operation sequence of `WetlandsSilver._create_dissolved_df` on a
collection whose CRS is `c`. -/
def wetlandsDissolveTrace (c : CRS) : List PipelineEvent :=
  [.statsAt c, .adjacencyAt c, .unionAt c, .statsAt c] ++ validateTrace c

/-- Operation sequence of `WaterProjectsSilver._create_dissolved_df` on a
collection whose CRS is `c`. -/
def waterProjectsDissolveTrace (c : CRS) : List PipelineEvent :=
  (if c ≠ CRS.epsg4326 then [.reprojectTo CRS.epsg4326] else [])
    ++ [.unionAt CRS.epsg4326, .bufferAt CRS.epsg4326]
    ++ validateTrace CRS.epsg4326

/-- C3 fails as stated: in the water-projects dissolve pass on metric-CRS
input, the union runs in EPSG:4326, not in EPSG:25832, and the reprojection to
EPSG:4326 happens before the union, not as the final step. -/
theorem C3_counterexample :
    PipelineEvent.unionAt CRS.epsg4326 ∈ waterProjectsDissolveTrace CRS.epsg25832
    ∧ PipelineEvent.unionAt CRS.epsg25832 ∉ waterProjectsDissolveTrace CRS.epsg25832
    ∧ (waterProjectsDissolveTrace CRS.epsg25832).indexOf
        (PipelineEvent.reprojectTo CRS.epsg4326) <
      (waterProjectsDissolveTrace CRS.epsg25832).indexOf
        (PipelineEvent.unionAt CRS.epsg4326) := by
  refine ⟨by decide, by decide, by decide⟩

/-- C3 amended: the invariant holds for the wetlands dissolve pass — all
statistics, adjacency and union work runs in the metric input CRS, and the
reprojection to EPSG:4326 comes after the metric-CRS buffer repair and
validity check and after the union; the water-projects dissolve pass instead
reprojects to EPSG:4326 before its union. -/
theorem C3_amended :
    (∀ c, PipelineEvent.unionAt c ∈ wetlandsDissolveTrace CRS.epsg25832 →
      c = CRS.epsg25832)
    ∧ (∀ c, PipelineEvent.adjacencyAt c ∈ wetlandsDissolveTrace CRS.epsg25832 →
      c = CRS.epsg25832)
    ∧ (∀ c, PipelineEvent.statsAt c ∈ wetlandsDissolveTrace CRS.epsg25832 →
      c = CRS.epsg25832)
    ∧ (wetlandsDissolveTrace CRS.epsg25832).indexOf
        (PipelineEvent.unionAt CRS.epsg25832) <
      (wetlandsDissolveTrace CRS.epsg25832).indexOf
        (PipelineEvent.reprojectTo CRS.epsg4326)
    ∧ (wetlandsDissolveTrace CRS.epsg25832).indexOf
        (PipelineEvent.validityCheckAt CRS.epsg25832) <
      (wetlandsDissolveTrace CRS.epsg25832).indexOf
        (PipelineEvent.reprojectTo CRS.epsg4326)
    ∧ (waterProjectsDissolveTrace CRS.epsg25832).indexOf
        (PipelineEvent.reprojectTo CRS.epsg4326) <
      (waterProjectsDissolveTrace CRS.epsg25832).indexOf
        (PipelineEvent.unionAt CRS.epsg4326) := by
  refine ⟨?_, ?_, ?_, by decide, by decide, by decide⟩
  · intro c hc
    simp [wetlandsDissolveTrace, validateTrace] at hc
    exact hc
  · intro c hc
    simp [wetlandsDissolveTrace, validateTrace] at hc
    exact hc
  · intro c hc
    simp [wetlandsDissolveTrace, validateTrace] at hc
    exact hc

/-- Witness for C3's amended claim at the union event of the wetlands trace. -/
theorem C3_witness :
    CRS.epsg25832 = CRS.epsg25832
    ∧ PipelineEvent.unionAt CRS.epsg25832 ∈ wetlandsDissolveTrace CRS.epsg25832 :=
  ⟨C3_amended.1 CRS.epsg25832 (by decide), by decide⟩

/-! ## The statistics reporter (claim C4)

`WetlandsSilver.analyze_geometry` and `log_geometry_statistics` contain no
exception handling, so any per-geometry error propagates.  Geometries here
are shapely objects with rational coordinates; the one structural fact the
reporter depends on is that only a Polygon has an `exterior` attribute. -/

/-- A shapely geometry as the reporter sees it: a polygon given by its
exterior ring's coordinate list, or a multi-polygon (the type `unary_union`
produces for disconnected groups), which has no exterior ring. -/
inductive ShapelyGeom where
  | polygon (exterior : List (ℚ × ℚ))
  | multipolygon (parts : List (List (ℚ × ℚ)))
deriving DecidableEq

/-- All coordinates of the geometry (for `geom.bounds`). -/
def ShapelyGeom.coords : ShapelyGeom → List (ℚ × ℚ)
  | .polygon e => e
  | .multipolygon ps => ps.flatten

/-- `geom.bounds` as `(minx, miny, maxx, maxy)`; unpacking the bounds of an
empty geometry raises (shapely gives an empty tuple, and `bounds[2]` is an
IndexError). -/
def geomBounds (g : ShapelyGeom) : Except String (ℚ × ℚ × ℚ × ℚ) :=
  match g.coords with
  | [] => .error "IndexError"
  | c :: cs =>
    .ok (cs.foldl
      (fun b d => (min b.1 d.1, min b.2.1 d.2, max b.2.2.1 d.1, max b.2.2.2 d.2))
      (c.1, c.2, c.1, c.2))

/-- `list(geom.exterior.coords)`: only a Polygon has an exterior ring; a
MultiPolygon has no attribute `exterior` and the access raises. -/
def exteriorCoords : ShapelyGeom → Except String (List (ℚ × ℚ))
  | .polygon e => .ok e
  | .multipolygon _ => .error "AttributeError"

/-- One coordinate lies within 0.01 of the 10-unit grid:
`abs(round(coord / 10) * 10 - coord) < 0.01`. -/
def gridAlignedCoord (c : ℚ) : Bool :=
  |((round (c / 10) : ℤ) : ℚ) * 10 - c| < 1 / 100

/-- The metric record `analyze_geometry` returns. -/
structure GeomMetrics where
  width : ℚ
  height : ℚ
  area : ℚ
  grid_aligned : Bool
  vertices : Nat
deriving DecidableEq

/-- `WetlandsSilver.analyze_geometry`: bounding-box width and height, their
product as area, grid alignment of every vertex coordinate, and the exterior
vertex count.  There is no exception handling: a geometry without an exterior
ring (or without bounds) makes the call raise. -/
def analyze_geometry (geom : ShapelyGeom) : Except String GeomMetrics :=
  match geomBounds geom with
  | .error e => .error e
  | .ok b =>
    match exteriorCoords geom with
    | .error e => .error e
    | .ok vs =>
      .ok { width := b.2.2.1 - b.1
          , height := b.2.2.2 - b.2.1
          , area := (b.2.2.1 - b.1) * (b.2.2.2 - b.2.1)
          , grid_aligned := vs.all (fun v => gridAlignedCoord v.1 && gridAlignedCoord v.2)
          , vertices := vs.length }

/-- The per-geometry loop of `log_geometry_statistics`
(`for geom in gdf.geometry: stats.append(self.analyze_geometry(geom))`):
the first per-geometry error propagates and aborts the loop. -/
def collectStats : List ShapelyGeom → Except String (List GeomMetrics)
  | [] => .ok []
  | g :: rest =>
    match analyze_geometry g with
    | .error e => .error e
    | .ok m =>
      match collectStats rest with
      | .error e => .error e
      | .ok ms => .ok (m :: ms)

/-- The aggregates `log_geometry_statistics` reports: feature count, the
distinct (width, height) pairs with their frequencies, the count of
non-grid-aligned features, the mean vertex count, and the total bounding-box
area in square kilometres.  The aggregates are only ever built from a
nonempty metrics list, so the column lookups and the mean's division are
well defined. -/
structure GeometryStats where
  total : Nat
  dimensionCounts : List ((ℚ × ℚ) × Nat)
  nonGridAligned : Nat
  meanVertices : ℚ
  totalAreaKm2 : ℚ
deriving DecidableEq

/-- `WetlandsSilver.log_geometry_statistics`: collect the per-geometry
metrics (propagating any error) and aggregate them.  On an empty collection
the metrics list is empty and `pd.DataFrame([])` has no columns, so the
first column access `stats_df["width"]` raises a `KeyError` before any
aggregate is computed. -/
def log_geometry_statistics (gs : List ShapelyGeom) : Except String GeometryStats :=
  match collectStats gs with
  | .error e => .error e
  | .ok [] => .error "KeyError"
  | .ok stats =>
    .ok { total := stats.length
        , dimensionCounts := (stats.map (fun s => (s.width, s.height))).dedup.map
            (fun d => (d, (stats.map (fun s => (s.width, s.height))).count d))
        , nonGridAligned := stats.countP (fun s => !s.grid_aligned)
        , meanVertices := (stats.map (fun s => (s.vertices : ℚ))).sum / (stats.length : ℚ)
        , totalAreaKm2 := (stats.map (fun s => s.area)).sum / 1000000 }

/-- Whether an `Except` computation returned without raising. -/
def exceptIsOk {ε α : Type} : Except ε α → Bool
  | .ok _ => true
  | .error _ => false

/-- The collection loop succeeds exactly when every per-geometry analysis
succeeds. -/
lemma collectStats_isOk (gs : List ShapelyGeom) :
    exceptIsOk (collectStats gs) = true ↔
      ∀ g ∈ gs, exceptIsOk (analyze_geometry g) = true := by
  induction gs with
  | nil => simp [collectStats, exceptIsOk]
  | cons g rest ih =>
    simp only [collectStats, List.forall_mem_cons]
    cases ha : analyze_geometry g with
    | error e => simp [exceptIsOk, ha]
    | ok m =>
      cases hc : collectStats rest with
      | error e =>
        rw [hc] at ih
        simp only [exceptIsOk] at ih ⊢
        simp [ha, ← ih]
      | ok ms =>
        rw [hc] at ih
        simp only [exceptIsOk] at ih ⊢
        simp [ha, ← ih]

/-- The collection loop returns one metrics record per geometry. -/
lemma collectStats_length (gs : List ShapelyGeom) (ms : List GeomMetrics)
    (h : collectStats gs = .ok ms) : ms.length = gs.length := by
  induction gs generalizing ms with
  | nil =>
    unfold collectStats at h
    rw [Except.ok.injEq] at h
    subst h
    rfl
  | cons g rest ih =>
    unfold collectStats at h
    cases ha : analyze_geometry g with
    | error e => rw [ha] at h; simp at h
    | ok m =>
      rw [ha] at h
      cases hc : collectStats rest with
      | error e => rw [hc] at h; simp at h
      | ok ms2 =>
        rw [hc] at h
        rw [Except.ok.injEq] at h
        subst h
        simp [ih ms2 hc]

/-- A polygon with a nonempty exterior ring analyzes without error. -/
lemma analyze_polygon_ok (e : List (ℚ × ℚ)) (hne : e ≠ []) :
    exceptIsOk (analyze_geometry (ShapelyGeom.polygon e)) = true := by
  unfold analyze_geometry geomBounds exteriorCoords
  cases e with
  | nil => exact absurd rfl hne
  | cons c cs => rfl

/-- A MultiPolygon of two unit squares far apart, the shape `unary_union`
yields for a disconnected group: it has bounds but no exterior ring. -/
def multiPolygonExample : ShapelyGeom :=
  .multipolygon [[(0, 0), (10, 0), (10, 10), (0, 10), (0, 0)],
                 [(20, 20), (30, 20), (30, 30), (20, 30), (20, 20)]]

/-- C4 fails as stated: the statistics report raises on a collection
containing a MultiPolygon — the `AttributeError` from `geom.exterior` is not
caught, so the geometry is not skipped and the report aborts. -/
theorem C4_counterexample :
    log_geometry_statistics [multiPolygonExample] = .error "AttributeError"
    ∧ exceptIsOk (log_geometry_statistics [multiPolygonExample]) = false := by
  exact ⟨rfl, rfl⟩

/-- C4 amended: the statistics report propagates errors instead of catching
them — it succeeds exactly when the collection is nonempty and every
geometry's metric computation succeeds; on an empty collection the aggregate
step itself raises (the column-less empty frame has no "width"), and the
report never raises on nonempty collections of polygons with nonempty
exterior rings. -/
theorem C4_amended :
    (∀ gs : List ShapelyGeom,
      exceptIsOk (log_geometry_statistics gs) = true ↔
        (gs ≠ [] ∧ ∀ g ∈ gs, exceptIsOk (analyze_geometry g) = true))
    ∧ (∀ gs : List ShapelyGeom, gs ≠ [] →
      (∀ g ∈ gs, ∃ e, g = ShapelyGeom.polygon e ∧ e ≠ []) →
        exceptIsOk (log_geometry_statistics gs) = true)
    ∧ log_geometry_statistics [] = .error "KeyError" := by
  have hlog : ∀ gs : List ShapelyGeom,
      exceptIsOk (log_geometry_statistics gs) = true ↔
        (exceptIsOk (collectStats gs) = true ∧ gs ≠ []) := by
    intro gs
    unfold log_geometry_statistics
    cases hc : collectStats gs with
    | error e => simp [exceptIsOk]
    | ok ms =>
      cases ms with
      | nil =>
        have hlen := collectStats_length gs [] hc
        have hgs : gs = [] := List.eq_nil_of_length_eq_zero hlen.symm
        simp [exceptIsOk, hgs]
      | cons m ms2 =>
        have hlen := collectStats_length gs (m :: ms2) hc
        have hgs : gs ≠ [] := by
          intro h
          rw [h] at hlen
          simp at hlen
        simp [exceptIsOk, hgs]
  refine ⟨?_, ?_, rfl⟩
  · intro gs
    rw [hlog gs, collectStats_isOk gs]
    exact and_comm
  · intro gs hne hpoly
    rw [hlog gs, collectStats_isOk gs]
    refine ⟨fun g hg => ?_, hne⟩
    obtain ⟨e, rfl, hne2⟩ := hpoly g hg
    exact analyze_polygon_ok e hne2

/-- Witness for C4's amended claim at a single grid-cell polygon. -/
theorem C4_witness :
    exceptIsOk (log_geometry_statistics [ShapelyGeom.polygon
      [(0, 0), (10, 0), (10, 10), (0, 10), (0, 0)]]) = true :=
  C4_amended.2.1 _ (by simp) (by
    intro g hg
    rw [List.mem_singleton] at hg
    subst hg
    exact ⟨_, rfl, by simp⟩)

end UnifiedPipeline
